/-
  Verification of the ATRelay repository (a Bluesky→IRC bridge) against its
  natural-language specification.

  The development shallowly embeds the Python sources:
    * src/at.py  — nick sanitization, author extraction, post/embed rendering,
                   timeline fetching and numbered post lookup;
    * src/irc.py — the per-connection IRC session state machine.

  Modelling conventions:
    * Python strings are Lean `String`s (operated on mostly as `List Char`);
      the Python helpers used by the source (`str.strip`, `str.split`,
      `str.split(' ', 2)`, `str.upper`, `str.lower`, `str.lstrip(':')`,
      `re.split(r'\r\n|\r|\n', ...)`) are reimplemented faithfully below.
    * `None`-able values are `Option`s; Python truthiness of strings
      (`x or y`, `if s:`) is modelled explicitly (empty string is falsy).
    * Code that can raise (`lines[-1]` on an empty list in `format_post`)
      returns `Option`, with `none` marking the raised `IndexError`.
    * Dictionaries are association lists with Python's insertion-order
      update semantics (`upsert`).
-/
import Mathlib

/-! ### Python string helpers -/

/-- The whitespace characters recognised by Python's `str.strip`/`str.split`
(ASCII range, which covers every string this program manipulates). -/
def isPySpace (c : Char) : Bool :=
  c = ' ' || c = '\t' || c = '\n' || c = '\r' || c = '\x0b' || c = '\x0c'

/-- `str.strip()` on a list of characters. -/
def stripChars (l : List Char) : List Char :=
  ((l.dropWhile isPySpace).reverse.dropWhile isPySpace).reverse

/-- Python `s.strip()`. -/
def pyStrip (s : String) : String :=
  String.mk (stripChars s.toList)

/-- `re.split(r'\r\n|\r|\n', text)`: the auxiliary scanner.  The alternation
order of the regex is mirrored by the pattern order (`\r\n` before `\r`). -/
def splitLinesAux : List Char → List Char → List String
  | [], cur => [String.mk cur.reverse]
  | '\r' :: '\n' :: rest, cur => String.mk cur.reverse :: splitLinesAux rest []
  | '\r' :: rest, cur => String.mk cur.reverse :: splitLinesAux rest []
  | '\n' :: rest, cur => String.mk cur.reverse :: splitLinesAux rest []
  | c :: rest, cur => splitLinesAux rest (c :: cur)

/-- `re.split(r'\r\n|\r|\n', text)` (on the empty string it yields `[""]`,
exactly as `re.split` does). -/
def splitLines (s : String) : List String :=
  splitLinesAux s.toList []

/-- Python `s.split()` scanner: split on runs of whitespace, dropping empties. -/
def pySplitWsAux : List Char → List Char → List String
  | [], cur => if cur.isEmpty then [] else [String.mk cur.reverse]
  | c :: rest, cur =>
    if isPySpace c then
      if cur.isEmpty then pySplitWsAux rest []
      else String.mk cur.reverse :: pySplitWsAux rest []
    else pySplitWsAux rest (c :: cur)

/-- Python `s.split()` (no separator: split on whitespace, drop empty fields). -/
def pySplitWs (s : String) : List String :=
  pySplitWsAux s.toList []

/-- Python `s.split(' ', 2)`: split on single spaces, at most twice,
keeping empty fields. -/
def splitSpace2 (s : String) : List String :=
  let cs := s.toList
  let a := cs.takeWhile (fun c => c ≠ ' ')
  match cs.dropWhile (fun c => c ≠ ' ') with
  | [] => [String.mk a]
  | _ :: r1 =>
    let b := r1.takeWhile (fun c => c ≠ ' ')
    match r1.dropWhile (fun c => c ≠ ' ') with
    | [] => [String.mk a, String.mk b]
    | _ :: r2 => [String.mk a, String.mk b, String.mk r2]

/-- Python `s.lstrip(':')`. -/
def pyLstripColon (s : String) : String :=
  String.mk (s.toList.dropWhile (fun c => c = ':'))

/-- Python `s.upper()` (ASCII, which is all the protocol commands use). -/
def pyToUpper (s : String) : String :=
  String.mk (s.toList.map Char.toUpper)

/-- Python `s.lower()` (ASCII). -/
def pyToLower (s : String) : String :=
  String.mk (s.toList.map Char.toLower)

/-- `' '.join(xs)`. -/
def joinSpace (xs : List String) : String :=
  String.intercalate " " xs

/-- Python `a or b` for an optional string `a` (`None` and `""` are falsy). -/
def pyOr (a : Option String) (b : String) : String :=
  match a with
  | some s => if s = "" then b else s
  | none => b

/-- How Python renders an optional string inside an f-string (`None` prints
as `"None"`). -/
def strOfPy (a : Option String) : String :=
  match a with
  | some s => s
  | none => "None"

/-! ### src/at.py — `sanitize` (nick derivation) -/

/-- A character admitted by the regex class `[A-Za-z0-9_]` in `sanitize`. -/
def nickChar (c : Char) : Bool :=
  c.isAlpha || c.isDigit || c = '_'

/-- The tail of `sanitize` after the character filter: the empty-result
fallback (`base = "_nohandle"`), the leading-digit prefix, and the
truncation `base[:16]`. -/
def sanitizeCore (base0 : List Char) : List Char :=
  let base1 := if base0.isEmpty then "_nohandle".toList else base0
  let base2 :=
    match base1 with
    | c :: _ => if c.isDigit then '_' :: base1 else base1
    | [] => base1
  base2.take 16

/-- `sanitize` from src/at.py: strip a trailing `.bsky.social`
(the regex `\.bsky\.social$`, 12 characters), replace `'.'` and `' '` with
`'_'`, keep only `[A-Za-z0-9_]`, fall back to `"_nohandle"` when empty,
prefix `'_'` on a leading digit, truncate to 16 characters. -/
def sanitize (s : String) : String :=
  let cs0 := s.toList
  let cs1 := if ".bsky.social".toList.isSuffixOf cs0 then cs0.take (cs0.length - 12) else cs0
  let cs2 := cs1.map (fun c => if c = '.' then '_' else c)
  let cs3 := cs2.map (fun c => if c = ' ' then '_' else c)
  String.mk (sanitizeCore (cs3.filter nickChar))

/-- The nick-derivation steps exactly as claim C3 words them: identical to
`sanitize` except that an empty filtered result is handled by "prefixing
with `'_'`" (yielding `"_"`), not by the `"_nohandle"` fallback the code
uses.  Kept solely to compare the claim's algorithm with the source's. -/
def specSanitizeC3 (s : String) : String :=
  let cs0 := s.toList
  let cs1 := if ".bsky.social".toList.isSuffixOf cs0 then cs0.take (cs0.length - 12) else cs0
  let cs2 := cs1.map (fun c => if c = '.' then '_' else c)
  let cs3 := cs2.map (fun c => if c = ' ' then '_' else c)
  let base := cs3.filter nickChar
  let base2 :=
    match base with
    | [] => ['_']
    | c :: t => if c.isDigit then '_' :: c :: t else c :: t
  String.mk (base2.take 16)

/-! ### src/at.py — data model -/

/-- A profile record as it appears on feed items (`author` / `reason.by`). -/
structure PostAuthor where
  did : String
  handle : String
  displayName : Option String
deriving DecidableEq, Repr

/-- `Author` from src/at.py: `__init__` derives `nick` from
`display_name or handle`. -/
structure Author where
  did : String
  handle : String
  displayName : Option String
  nick : String
deriving DecidableEq, Repr

/-- `Author.__init__` from src/at.py. -/
def Author.make (did handle : String) (displayName : Option String) : Author :=
  ⟨did, handle, displayName, sanitize (pyOr displayName handle)⟩

/-- One feature inside a rich-text facet (`feature.py_type`, `feature.uri`). -/
structure Feature where
  pyType : String
  uri : String
deriving DecidableEq, Repr

/-- One facet of `record.facets`. -/
structure Facet where
  pyType : String
  features : List Feature
deriving DecidableEq, Repr

/-- One image of an `app.bsky.embed.images#view` embed. -/
structure ImageV where
  alt : Option String
  fullsize : Option String
  thumb : Option String
deriving DecidableEq, Repr

mutual

/-- A post record (`post.record` and the quoted `e.record.value`):
`text` (Python `None` collapses to `""`, which the code treats identically
via truthiness), `facets`, the `reply` marker (modelled as whether the
optional reply object is set), and an optional nested embed. -/
inductive Record where
  | mk (text : String) (facets : List Facet) (reply : Bool) (embed : OEmbed)

/-- `Optional[Embed]`, spelled out so the renderer can recurse structurally. -/
inductive OEmbed where
  | none
  | some (e : Embed)

/-- `Optional[Record]`: `hasattr(e.record, 'value')`. -/
inductive ORecord where
  | none
  | some (r : Record)

/-- The embed variants dispatched on `e.py_type` in `format_embed`:
`imagesView` = `app.bsky.embed.images#view`; `recordView` =
`app.bsky.embed.record#view` with the quoted value, the record's `uri` and
the quoted author's handle; `externalView` = any `py_type` containing
`'external'`; `videoView` = `app.bsky.embed.video#view`; `otherView` =
everything else (falls through to `return []`). -/
inductive Embed where
  | imagesView (images : List ImageV)
  | recordView (value : ORecord) (uri : String) (authorHandle : String)
  | externalView (uri : String)
  | videoView (alt : Option String) (cid : Option String)
  | otherView (pyType : String)

end

/-- `record.text`. -/
def Record.text : Record → String
  | .mk t _ _ _ => t

/-- `record.facets`. -/
def Record.facets : Record → List Facet
  | .mk _ f _ _ => f

/-- Whether `record.reply` is set (truthy). -/
def Record.reply : Record → Bool
  | .mk _ _ r _ => r

/-- `record.embed`. -/
def Record.embed : Record → OEmbed
  | .mk _ _ _ e => e

/-- `post` on a feed item: `cid`, `uri`, `author`, `record`, `embed`. -/
structure Post where
  cid : String
  uri : String
  author : PostAuthor
  record : Record
  embed : OEmbed

/-- A repost reason (`fv.reason` with a `by` attribute). -/
structure Reason where
  byActor : PostAuthor

/-- One timeline entry (a feed view): the post, an optional repost reason,
and its timestamp.  The timestamp field models `post._at`, which
src/irc.py sorts on in `send_history`; neither `posts` nor `_at` is defined
anywhere under src/, so it is modelled from the spec's
`created_at: timestamp` field of `Post` (spec §3), reduced to a `Nat` since
only its ordering is ever used. -/
structure FeedItem where
  post : Post
  reason : Option Reason
  atTime : Nat

/-! ### src/at.py — rendering -/

/-- Replace the last element of a list by `f` of it (models the in-place
`lines[-1] += ...`; on `[]` the Python code raises instead, handled by the
caller `format_post`). -/
def updateLast (f : String → String) : List String → List String
  | [] => []
  | [a] => [f a]
  | a :: b :: t => a :: updateLast f (b :: t)

/-- The facet-link collection loop of `format_post`. -/
def collectLinks (facets : List Facet) : List String :=
  facets.flatMap fun f =>
    if f.pyType = "app.bsky.richtext.facet" then
      (f.features.filter fun ft => ft.pyType = "app.bsky.richtext.facet#link").map Feature.uri
    else []

/-- `AT.format_post` from src/at.py.  `none` models the `IndexError` raised
by `lines[-1]` when every split line is dropped as blank. -/
def format_post (r : Record) : Option (List String) :=
  let text := pyStrip (if r.text = "" then "(no text)" else r.text)
  let lines := (splitLines text).filter fun l => pyStrip l ≠ ""
  let links := collectLinks r.facets
  match lines with
  | [] => none
  | l => some (updateLast (fun last => last ++ " " ++ joinSpace links) l)

/-- The alt-text fragment `f"{x.alt.replace('\n',' ').strip()} "` guarded by
truthiness of `alt`. -/
def altText (alt : Option String) : String :=
  match alt with
  | some a => if a = "" then "" else pyStrip (String.mk (a.toList.map fun c => if c = '\n' then ' ' else c)) ++ " "
  | none => ""

/-- `x.fullsize or x.thumb` rendered inside the f-string. -/
def pyOrImg (fullsize thumb : Option String) : String :=
  match fullsize with
  | some f => if f = "" then strOfPy thumb else f
  | none => strOfPy thumb

/-- `re.search(r'did:plc:[^/]+', uri)`: the first occurrence of
`did:plc:` followed by at least one non-`'/'` character, extended maximally. -/
def findDidPlc : List Char → Option String
  | [] => none
  | c :: rest =>
    let cs := c :: rest
    if "did:plc:".toList.isPrefixOf cs then
      let tail := cs.drop 8
      match tail.takeWhile (fun ch => ch ≠ '/') with
      | [] => findDidPlc rest
      | body => some ("did:plc:" ++ String.mk body)
    else findDidPlc rest

/-- `AT.format_embed` on a present embed.  The recordView branch recursively
formats the quoted record exactly as the source does
(`format_post(e.record.value)` followed by
`format_embed(e.record.value.embed, e.record.uri)`); `none` propagates the
`IndexError` a nested `format_post` can raise. -/
def format_embedE : Embed → String → Option (List String)
  | .imagesView imgs, _ =>
    Option.some (imgs.map fun x => "📷 " ++ altText x.alt ++ pyOrImg x.fullsize x.thumb ++ " ")
  | .recordView v uri2 authorHandle, _ =>
    match v with
    | .none => Option.some []
    | .some (.mk tx fc rp emb) =>
      match format_post (.mk tx fc rp emb) with
      | Option.none => Option.none
      | Option.some a =>
        let nested : Option (List String) :=
          match emb with
          | .none => Option.some []
          | .some e2 => format_embedE e2 uri2
        match nested with
        | Option.none => Option.none
        | Option.some b =>
          Option.some (("💬 @" ++ authorHandle ++ ":") :: (a ++ b).map fun l => " | " ++ l)
  | .externalView uri, _ => Option.some ["🔗 " ++ uri]
  | .videoView alt cid, uri =>
    match findDidPlc uri.toList, cid with
    | Option.some did, Option.some c =>
      if c = "" then Option.some []
      else Option.some ["🎥 " ++ altText alt ++ "https://atproto-browser.vercel.app/blob/" ++ did ++ "/" ++ c]
    | _, _ => Option.some []
  | .otherView _, _ => Option.some []

/-- `AT.format_embed` from src/at.py (`if not e: return []`). -/
def format_embed (e : OEmbed) (uri : String) : Option (List String) :=
  match e with
  | .none => Option.some []
  | .some e1 => format_embedE e1 uri

/-- `AT.format_post_for_irc` from src/at.py: suppress replies, render the
record, append the embed rendering, merge an exactly-two-line result, and
wrap reposts in a marker line plus `" | "`-indented body lines. -/
def format_post_for_irc (fv : FeedItem) : Option (List String) :=
  if fv.post.record.reply then some []
  else
    match format_post fv.post.record with
    | Option.none => Option.none
    | Option.some a =>
      match format_embed fv.post.embed fv.post.uri with
      | Option.none => Option.none
      | Option.some b =>
        let fl0 := a ++ b
        let fl := if fl0.length = 2 then [joinSpace fl0] else fl0
        if fv.reason.isSome then
          Option.some (("↻ @" ++ fv.post.author.handle ++ ":") :: fl.map fun l => " | " ++ l)
        else
          Option.some fl

/-- `AT.get_author` from src/at.py: the repost actor when a reason with a
`by` attribute is present, else the post's own author. -/
def get_author (fv : FeedItem) : Author :=
  let a := match fv.reason with
    | some r => r.byActor
    | none => fv.post.author
  Author.make a.did a.handle a.displayName

/-! ### src/at.py — feed store -/

/-- The `AT` state: `timeline` and `post_index` as built by
`fetch_timeline`, plus `posts`.  `posts` models the `self.at.posts`
collection that src/irc.py's `send_history` reads; it is not defined
anywhere under src/, and is modelled from the spec (§3 FeedStore: the
ordered sequence of feed items, feed order as delivered). -/
structure ATState where
  timeline : List FeedItem
  post_index : List (Nat × String × String)
  posts : List FeedItem

/-- The dict comprehension of `fetch_timeline`:
`{i + 1: {'cid': fv.post.cid, 'uri': fv.post.uri} for i, fv in enumerate(...)}`. -/
def build_index (i : Nat) : List FeedItem → List (Nat × String × String)
  | [] => []
  | fv :: rest => (i + 1, fv.post.cid, fv.post.uri) :: build_index (i + 1) rest

/-- `AT.fetch_timeline` from src/at.py, with the fetched feed supplied as
input: replaces `timeline` and rebuilds `post_index`. -/
def fetch_timeline (at' : ATState) (feed : List FeedItem) : ATState :=
  { at' with timeline := feed, post_index := build_index 0 feed }

/-- `AT.find_feed_view` from src/at.py: look `n` up in `post_index`, then
linearly scan `timeline` for the first feed view with the stored `cid`. -/
def find_feed_view (at' : ATState) (n : Nat) : Option FeedItem :=
  match (at'.post_index.find? fun p => p.1 == n).map (fun p => p.2) with
  | none => none
  | some pi => at'.timeline.find? fun fv => fv.post.cid == pi.1

/-! ### src/irc.py — messages

Each constructor stands for one `self.send(...)` call site; `render` spells
out the exact f-string the source writes (the `time` message tag abstracts
the `strftime` formatting of the timestamp, which is the only part of a
line not reproduced character for character). -/

/-- One protocol line written by the session, as structured data. -/
inductive Msg where
  | notice (text : String)
  | capLs
  | capAck
  | pong (arg : Option String)
  | welcome1 (server nick : String)
  | welcome2 (server nick : String)
  | welcome3 (server nick : String)
  | welcome4 (server nick : String)
  | joinSelf (nick handle : String)
  | topic (nick : String)
  | joinAuthor (nick handle : String)
  | privmsgChannel (nick text : String)
  | postLine (tagged : Bool) (time : Nat) (nick server line : String)
  | whoReply (server selfNick handle nick display : String)
  | whoEnd (server selfNick : String)
  | whoisNoSuchNick (server selfNick nick : String)
  | whoisUser (server selfNick nick handle display : String)
  | whoisChannel (server selfNick nick : String)
  | whoisInfo (server selfNick nick info : String)
  | whoisEnd (server selfNick nick : String)
  | namesReply (server selfNick : String) (names : List String)
  | namesEnd (server selfNick : String)
  | modeChannel (server selfNick : String)
  | modeUser (server selfNick : String)
deriving DecidableEq, Repr

/-- How Python's f-strings print `self.nick` (which may still be `None`). -/
def optNickStr (o : Option String) : String :=
  match o with
  | some n => n
  | none => "None"

/-- The exact wire text of each message (cf. the `self.send(f"...")` calls
in src/irc.py). -/
def Msg.render : Msg → String
  | .notice t => "NOTICE * :" ++ t
  | .capLs => "CAP * LS :message-tags"
  | .capAck => "CAP * ACK :message-tags"
  | .pong (some a) => "PONG " ++ a
  | .pong none => "PONG :"
  | .welcome1 sv n => ":" ++ sv ++ " 001 " ++ n ++ " :Welcome to the Bluesky IRC Bridge, " ++ n
  | .welcome2 sv n => ":" ++ sv ++ " 002 " ++ n ++ " :Running ATRelay IRC Bridge"
  | .welcome3 sv n => ":" ++ sv ++ " 003 " ++ n ++ " :This server was created just now"
  | .welcome4 sv n => ":" ++ sv ++ " 004 " ++ n ++ " " ++ sv ++ " 1.0 o o"
  | .joinSelf n h => ":" ++ n ++ "!~@" ++ h ++ " JOIN #timeline"
  | .topic n => ":localhost 332 " ++ n ++ " #timeline :Bluesky AT Bridge"
  | .joinAuthor n h => ":" ++ n ++ "!@" ++ h ++ " JOIN #timeline"
  | .privmsgChannel n t => ":" ++ n ++ "!~self@local PRIVMSG #timeline :" ++ t
  | .postLine tagged time n sv l =>
    (if tagged then "@time=" ++ toString time ++ " " else "")
      ++ ":" ++ n ++ "!@" ++ sv ++ " PRIVMSG #timeline :" ++ l
  | .whoReply sv sn h n d => ":" ++ sv ++ " 352 " ++ sn ++ " #timeline * " ++ h ++ " " ++ n ++ " H :0 " ++ d
  | .whoEnd sv sn => ":" ++ sv ++ " 315 " ++ sn ++ " #timeline :End of WHO list"
  | .whoisNoSuchNick sv sn n => ":" ++ sv ++ " 401 " ++ sn ++ " " ++ n ++ " :No such nick"
  | .whoisUser sv sn n h d => ":" ++ sv ++ " 311 " ++ sn ++ " " ++ n ++ " * " ++ h ++ " * :" ++ d
  | .whoisChannel sv sn n => ":" ++ sv ++ " 319 " ++ sn ++ " " ++ n ++ " :#timeline"
  | .whoisInfo sv sn n info => ":" ++ sv ++ " 320 " ++ sn ++ " " ++ n ++ " :" ++ info
  | .whoisEnd sv sn n => ":" ++ sv ++ " 318 " ++ sn ++ " " ++ n ++ " :End of WHOIS list"
  | .namesReply sv sn names => ":" ++ sv ++ " 353 " ++ sn ++ " = #timeline :" ++ joinSpace names
  | .namesEnd sv sn => ":" ++ sv ++ " 366 " ++ sn ++ " #timeline :End of NAMES list"
  | .modeChannel sv sn => ":" ++ sv ++ " 324 " ++ sn ++ " #timeline +nt"
  | .modeUser sv sn => ":" ++ sv ++ " 221 " ++ sn ++ " +"

/-! ### src/irc.py — session state -/

/-- Python-dict update on an association list: overwrite in place when the
key exists (keeping insertion order), else append. -/
def upsert {α : Type} (l : List (String × α)) (k : String) (v : α) : List (String × α) :=
  if l.any (fun p => p.1 = k) then l.map (fun p => if p.1 = k then (k, v) else p)
  else l ++ [(k, v)]

/-- Python-dict `get` on an association list. -/
def lookupA {α : Type} (l : List (String × α)) (k : String) : Option α :=
  (l.find? fun p => p.1 = k).map (fun p => p.2)

/-- The per-connection state of `IRC.__init__` in src/irc.py.  `output` is
the sequence of lines written so far; `serverName` and `bskyHandle` are the
environment values read at construction time.  `joinedAuthors` is the
`joined_authors` dict, whose values are only ever `True`, hence a list of
keys in insertion order. -/
structure SessionState where
  nick : Option String
  gotNick : Bool
  gotUser : Bool
  registered : Bool
  joinedTimeline : Bool
  capMessageTags : Bool
  capNegotiating : Bool
  running : Bool
  authorNicks : List (String × String)
  authors : List (String × Author)
  joinedAuthors : List String
  output : List Msg
  serverName : String
  bskyHandle : String

/-- `IRC.send`: append one line to the connection's output. -/
def send (s : SessionState) (m : Msg) : SessionState :=
  { s with output := s.output ++ [m] }

/-- `IRC.send_channel`: guarded by truthiness of `self.nick`. -/
def send_channel (s : SessionState) (t : String) : SessionState :=
  match s.nick with
  | some n => if n = "" then s else send s (.privmsgChannel n t)
  | none => s

/-- `IRC.ensure_author_joined` from src/irc.py. -/
def ensure_author_joined (s : SessionState) (a : Author) : SessionState :=
  if a.nick ∈ s.joinedAuthors then s
  else
    let s1 := send s (.joinAuthor a.nick a.handle)
    { s1 with
      joinedAuthors := s1.joinedAuthors ++ [a.nick],
      authors := upsert s1.authors a.nick a,
      authorNicks := upsert s1.authorNicks a.handle a.nick }

/-- `IRC.send_post_as_author` from src/irc.py: extract the author, announce
the join if needed, render, and send each line tagged with the post time.
The `Bool` is `false` when `format_post_for_irc` raises, in which case the
exception escapes after the join bookkeeping has already happened and no
post line is written. -/
def send_post_as_author (s : SessionState) (fv : FeedItem) : SessionState × Bool :=
  let a := get_author fv
  let s1 := ensure_author_joined s a
  match format_post_for_irc fv with
  | none => (s1, false)
  | some lines =>
    ({ s1 with output := s1.output ++ lines.map (fun l =>
        Msg.postLine s1.capMessageTags fv.atTime a.nick s1.serverName l) }, true)

/-- The delivery loop of `send_history`: posts are sent in order until one
raises (the exception aborts the loop and is swallowed by the caller's
read-loop handler). -/
def sendPosts (s : SessionState) : List FeedItem → SessionState
  | [] => s
  | fv :: rest =>
    match send_post_as_author s fv with
    | (s1, true) => sendPosts s1 rest
    | (s1, false) => s1

/-- The sort key relation of `sorted(self.at.posts, key=lambda p: p._at)`. -/
def leAt (a b : FeedItem) : Prop := a.atTime ≤ b.atTime

instance : DecidableRel leAt := fun a b => Nat.decLe a.atTime b.atTime

instance : IsTotal FeedItem leAt := ⟨fun a b => Nat.le_total a.atTime b.atTime⟩

instance : IsTrans FeedItem leAt := ⟨fun _ _ _ => Nat.le_trans⟩

/-- `sorted(posts, key=lambda p: p._at)`.  Python's `sorted` is a stable
sort by the key; insertion sort on `leAt` is stable as well, and a stable
sort by a given key is unique, so the two agree on every input. -/
def sortPosts (l : List FeedItem) : List FeedItem :=
  List.insertionSort leAt l

/-- `IRC.send_history` from src/irc.py. -/
def send_history (at' : ATState) (s : SessionState) : SessionState :=
  if at'.posts.isEmpty then send_channel s "No posts."
  else sendPosts s (sortPosts at'.posts)

/-- `IRC.finish_registration` from src/irc.py: guarded by `registered`,
emits 001–004, marks the channel joined, announces the client's own join,
sends the topic, and replays history. -/
def finish_registration (at' : ATState) (s : SessionState) : SessionState :=
  if s.registered then s
  else
    let s1 := { s with registered := true }
    let n := optNickStr s1.nick
    let s2 := send (send (send (send s1 (.welcome1 s1.serverName n)) (.welcome2 s1.serverName n))
                      (.welcome3 s1.serverName n)) (.welcome4 s1.serverName n)
    let s3 := { s2 with joinedTimeline := true }
    let s4 := send (send s3 (.joinSelf n s3.bskyHandle)) (.topic n)
    send_history at' s4

/-- `IRC.parse_timeline_cmd` from src/irc.py: the bang-command dispatcher
for channel messages.  The only recognised command is `!echo` with at
least one argument; everything else gets the help line. -/
def parse_timeline_cmd (s : SessionState) (msg : String) : SessionState :=
  match pySplitWs (pyStrip msg) with
  | [] => s
  | c0 :: rest =>
    if pyToLower c0 = "!echo" ∧ rest ≠ [] then send_channel s (joinSpace rest)
    else send_channel s "Commands: !echo <text>"

/-- `IRC.handle_capability` from src/irc.py. -/
def handle_capability (s : SessionState) (args : List String) : SessionState :=
  match args with
  | [] => s
  | a0 :: rest =>
    let sub := pyToUpper a0
    if sub = "LS" then send { s with capNegotiating := true } .capLs
    else if sub = "REQ" then
      match rest with
      | [] => s
      | a1 :: _ =>
        if pyLstripColon a1 = "message-tags" then send { s with capMessageTags := true } .capAck
        else s
    else if sub = "END" then { s with capNegotiating := false }
    else s

/-- `IRC.handle_mode` from src/irc.py. -/
def handle_mode (s : SessionState) (target : String) : SessionState :=
  if target = "#timeline" then send s (.modeChannel s.serverName (optNickStr s.nick))
  else
    match s.nick with
    | some n => if target = n then send s (.modeUser s.serverName (optNickStr s.nick)) else s
    | none => s

/-- `IRC.handle_who` from src/irc.py: one 352 per author in the session's
own map (dict iteration order = insertion order), then end-of-list. -/
def handle_who (s : SessionState) (target : String) : SessionState :=
  if target ≠ "#timeline" then s
  else
    let sn := optNickStr s.nick
    let s1 := { s with output := s.output ++ s.authors.map (fun p =>
        Msg.whoReply s.serverName sn p.2.handle p.1 (pyOr p.2.displayName p.2.handle)) }
    send s1 (.whoEnd s.serverName sn)

/-- `IRC.handle_whois` from src/irc.py. -/
def handle_whois (s : SessionState) (nick : String) : SessionState :=
  let sn := optNickStr s.nick
  match lookupA s.authors nick with
  | none => send s (.whoisNoSuchNick s.serverName sn nick)
  | some a =>
    let ms : List Msg :=
      [.whoisUser s.serverName sn nick a.handle (pyOr a.displayName a.handle),
       .whoisChannel s.serverName sn nick,
       .whoisInfo s.serverName sn nick ("Bluesky ID: " ++ a.did),
       .whoisInfo s.serverName sn nick ("Handle: @" ++ a.handle)]
      ++ (match a.displayName with
          | some d => if d = "" then [] else [.whoisInfo s.serverName sn nick ("Display Name: " ++ d)]
          | none => [])
      ++ [.whoisEnd s.serverName sn nick]
    { s with output := s.output ++ ms }

/-- `names[i:i + 20]` chunking of `handle_names`. -/
def chunks20 : List String → List (List String)
  | [] => []
  | a :: t => ((a :: t).take 20) :: chunks20 ((a :: t).drop 20)
termination_by l => l.length
decreasing_by simp [List.length_drop]; omega

/-- `IRC.handle_names` from src/irc.py. -/
def handle_names (s : SessionState) (target : String) : SessionState :=
  if target ≠ "#timeline" then s
  else
    let sn := optNickStr s.nick
    let names := s.authors.map fun p => p.1
    let s1 := { s with output := s.output ++ (chunks20 names).map (fun c =>
        Msg.namesReply s.serverName sn c) }
    send s1 (.namesEnd s.serverName sn)

/-- `IRC.handle_line` from src/irc.py: whitespace-split the line, uppercase
the command, dispatch.  Guards inside branches (`PRIVMSG` needing
`joined_timeline` and a `#timeline` target with at least three tokens,
`WHO`/`WHOIS`/`NAMES` needing an argument) reproduce Python's `elif`
conditions: when they fail no later branch can match the same command, so
falling back to the unchanged state is equivalent. -/
def handle_line (at' : ATState) (s : SessionState) (line : String) : SessionState :=
  match pySplitWs line with
  | [] => s
  | p0 :: rest =>
    let cmd := pyToUpper p0
    if cmd = "CAP" then handle_capability s rest
    else if cmd = "PING" then send s (.pong rest.head?)
    else if cmd = "MODE" then
      match rest with
      | [] => s
      | t :: _ => handle_mode s t
    else if cmd = "NICK" then
      let s1 := { s with nick := some (rest.headD "anon"), gotNick := true }
      if s1.gotUser then finish_registration at' s1 else s1
    else if cmd = "USER" then
      let s1 := { s with gotUser := true }
      if s1.gotNick then finish_registration at' s1 else s1
    else if cmd = "PRIVMSG" then
      if s.joinedTimeline then
        match rest with
        | t :: _ :: _ =>
          if t = "#timeline" then
            let msg :=
              match splitSpace2 line with
              | _ :: _ :: m :: _ => m.drop 1
              | _ => ""
            parse_timeline_cmd s msg
          else s
        | _ => s
      else s
    else if cmd = "QUIT" then { s with running := false }
    else if cmd = "WHO" then
      match rest with
      | t :: _ => handle_who s t
      | [] => s
    else if cmd = "WHOIS" then
      match rest with
      | t :: _ => handle_whois s t
      | [] => s
    else if cmd = "NAMES" then
      match rest with
      | t :: _ => handle_names s t
      | [] => s
    else s

/-- The session state right after `IRC.__init__` plus the greeting NOTICE
that `handle_connection` sends before entering the read loop. -/
def initSession (serverName bskyHandle : String) : SessionState :=
  { nick := none, gotNick := false, gotUser := false, registered := false,
    joinedTimeline := false, capMessageTags := false, capNegotiating := false,
    running := true, authorNicks := [], authors := [], joinedAuthors := [],
    output := [.notice "Welcome to the Bluesky IRC Bridge, JOIN #timeline"],
    serverName := serverName, bskyHandle := bskyHandle }

/-- One external stimulus to a session: a line read from the client, or a
post fanned out to it (`send_post_as_author`, called by the server's sync
loop and by history replay for lines; exceptions from a post delivery are
swallowed by the caller, leaving the state as of the raise). -/
inductive Ev where
  | cline (l : String)
  | post (fv : FeedItem)

/-- Process one stimulus. -/
def stepEv (at' : ATState) (s : SessionState) : Ev → SessionState
  | .cline l => handle_line at' s l
  | .post fv => (send_post_as_author s fv).1

/-- A whole connection lifetime: the freshly constructed session consuming
a sequence of stimuli. -/
def runSession (at' : ATState) (serverName bskyHandle : String) (evs : List Ev) : SessionState :=
  evs.foldl (stepEv at') (initSession serverName bskyHandle)

/-! ### Output classification and session invariants -/

/-- Is this line the 001 welcome (first line of the welcome sequence)? -/
def is001 : Msg → Bool
  | .welcome1 _ _ => true
  | _ => false

/-- Is this line the client's own JOIN announcement? -/
def isSelfJoinMsg : Msg → Bool
  | .joinSelf _ _ => true
  | _ => false

/-- Is this line an author JOIN announcement for nick `k`
(emitted only by `ensure_author_joined`)? -/
def isAuthorJoinFor (k : String) : Msg → Bool
  | .joinAuthor n _ => n == k
  | _ => false

/-- Is this line any JOIN announcement (self or author) for nick `k`? -/
def isJoinFor (k : String) : Msg → Bool
  | .joinAuthor n _ => n == k
  | .joinSelf n _ => n == k
  | _ => false

/-- The rendered body of a delivered post line, if this is one. -/
def postText : Msg → Option String
  | .postLine _ _ _ _ l => some l
  | _ => none

/-- Does this stimulus carry a line whose command token is `NICK`? -/
def isNickEv : Ev → Bool
  | .cline l =>
    match pySplitWs l with
    | [] => false
    | p0 :: _ => pyToUpper p0 == "NICK"
  | .post _ => false

/-- Does this stimulus carry a line whose command token is `USER`? -/
def isUserEv : Ev → Bool
  | .cline l =>
    match pySplitWs l with
    | [] => false
    | p0 :: _ => pyToUpper p0 == "USER"
  | .post _ => false

/-- The join bookkeeping invariant: the session has emitted exactly one
author join announcement for each nick recorded in `joined_authors`, and
none for any other nick. -/
def CInv (s : SessionState) : Prop :=
  ∀ k, s.output.countP (isAuthorJoinFor k) = (if k ∈ s.joinedAuthors then 1 else 0)

/-- A step of the session that completes no registration: the registration
flags are untouched, no 001 and no self join is written, and the join
bookkeeping invariant is preserved. -/
structure Pres (s s' : SessionState) : Prop where
  gotNick : s'.gotNick = s.gotNick
  gotUser : s'.gotUser = s.gotUser
  registered : s'.registered = s.registered
  c001 : s'.output.countP is001 = s.output.countP is001
  cSelf : s'.output.countP isSelfJoinMsg = s.output.countP isSelfJoinMsg
  cAuth : CInv s → CInv s'

theorem Pres.rfl' {s : SessionState} : Pres s s :=
  ⟨rfl, rfl, rfl, rfl, rfl, id⟩

theorem Pres.trans' {s t u : SessionState} (h1 : Pres s t) (h2 : Pres t u) : Pres s u :=
  ⟨h2.gotNick.trans h1.gotNick, h2.gotUser.trans h1.gotUser,
   h2.registered.trans h1.registered, h2.c001.trans h1.c001,
   h2.cSelf.trans h1.cSelf, fun h => h2.cAuth (h1.cAuth h)⟩

theorem countP_map_false {α : Type} (p : Msg → Bool) (f : α → Msg) (l : List α)
    (h : ∀ x, p (f x) = false) : (l.map f).countP p = 0 := by
  induction l with
  | nil => rfl
  | cons x t ih => simp [List.countP_cons, h, ih]

theorem pres_append (s : SessionState) (ms : List Msg)
    (h1 : ms.countP is001 = 0) (h2 : ms.countP isSelfJoinMsg = 0)
    (h3 : ∀ k, ms.countP (isAuthorJoinFor k) = 0) :
    Pres s { s with output := s.output ++ ms } := by
  refine ⟨rfl, rfl, rfl, ?_, ?_, ?_⟩
  · simp [List.countP_append, h1]
  · simp [List.countP_append, h2]
  · intro hc k
    simp only [List.countP_append, h3, Nat.add_zero]
    exact hc k

theorem pres_send (s : SessionState) (m : Msg)
    (h1 : is001 m = false) (h2 : isSelfJoinMsg m = false)
    (h3 : ∀ k, isAuthorJoinFor k m = false) :
    Pres s (send s m) :=
  pres_append s [m] (by simp [List.countP_cons, h1]) (by simp [List.countP_cons, h2])
    (fun k => by simp [List.countP_cons, h3])

theorem pres_send_channel (s : SessionState) (t : String) :
    Pres s (send_channel s t) := by
  unfold send_channel
  cases s.nick with
  | none => exact Pres.rfl'
  | some n =>
    by_cases h : n = ""
    · simp [h]; exact Pres.rfl'
    · simp [h]; exact pres_send _ _ rfl rfl (fun k => rfl)

theorem pres_parse_timeline_cmd (s : SessionState) (msg : String) :
    Pres s (parse_timeline_cmd s msg) := by
  unfold parse_timeline_cmd
  cases pySplitWs (pyStrip msg) with
  | nil => exact Pres.rfl'
  | cons c0 rest =>
    by_cases h : pyToLower c0 = "!echo" ∧ rest ≠ []
    · simp [h]; exact pres_send_channel _ _
    · simp [h]; exact pres_send_channel _ _

theorem pres_handle_capability (s : SessionState) (args : List String) :
    Pres s (handle_capability s args) := by
  unfold handle_capability
  cases args with
  | nil => exact Pres.rfl'
  | cons a0 rest =>
    dsimp only
    by_cases h1 : pyToUpper a0 = "LS"
    · rw [if_pos h1]
      refine ⟨rfl, rfl, rfl, ?_, ?_, ?_⟩
      · simp [send, List.countP_append, List.countP_cons, is001]
      · simp [send, List.countP_append, List.countP_cons, isSelfJoinMsg]
      · intro hc k
        simp [send, CInv, List.countP_append, List.countP_cons, isAuthorJoinFor, hc k]
    · rw [if_neg h1]
      by_cases h2 : pyToUpper a0 = "REQ"
      · rw [if_pos h2]
        cases rest with
        | nil => exact Pres.rfl'
        | cons a1 t =>
          dsimp only
          by_cases h3 : pyLstripColon a1 = "message-tags"
          · rw [if_pos h3]
            refine ⟨rfl, rfl, rfl, ?_, ?_, ?_⟩
            · simp [send, List.countP_append, List.countP_cons, is001]
            · simp [send, List.countP_append, List.countP_cons, isSelfJoinMsg]
            · intro hc k
              simp [send, CInv, List.countP_append, List.countP_cons, isAuthorJoinFor, hc k]
          · rw [if_neg h3]
            exact Pres.rfl'
      · rw [if_neg h2]
        by_cases h3 : pyToUpper a0 = "END"
        · rw [if_pos h3]
          exact ⟨rfl, rfl, rfl, rfl, rfl, id⟩
        · rw [if_neg h3]
          exact Pres.rfl'

theorem pres_handle_mode (s : SessionState) (target : String) :
    Pres s (handle_mode s target) := by
  unfold handle_mode
  by_cases h1 : target = "#timeline"
  · rw [if_pos h1]
    exact pres_send _ _ rfl rfl (fun k => rfl)
  · rw [if_neg h1]
    cases s.nick with
    | none => exact Pres.rfl'
    | some n =>
      dsimp only
      by_cases h2 : target = n
      · rw [if_pos h2]
        exact pres_send _ _ rfl rfl (fun k => rfl)
      · rw [if_neg h2]
        exact Pres.rfl'

theorem pres_handle_who (s : SessionState) (target : String) :
    Pres s (handle_who s target) := by
  unfold handle_who
  by_cases h1 : target ≠ "#timeline"
  · rw [if_pos h1]
    exact Pres.rfl'
  · rw [if_neg h1]
    refine Pres.trans' (pres_append s _ ?_ ?_ ?_) (pres_send _ _ rfl rfl (fun k => rfl))
    · exact countP_map_false _ _ _ (fun x => rfl)
    · exact countP_map_false _ _ _ (fun x => rfl)
    · intro k; exact countP_map_false _ _ _ (fun x => rfl)

theorem pres_handle_whois (s : SessionState) (nick : String) :
    Pres s (handle_whois s nick) := by
  unfold handle_whois
  cases lookupA s.authors nick with
  | none => exact pres_send _ _ rfl rfl (fun k => rfl)
  | some a =>
    apply pres_append
    · rcases a.displayName with _ | d
      · rfl
      · by_cases h : d = "" <;> simp [h, List.countP_append, List.countP_cons, is001]
    · rcases a.displayName with _ | d
      · rfl
      · by_cases h : d = "" <;> simp [h, List.countP_append, List.countP_cons, isSelfJoinMsg]
    · intro k
      rcases a.displayName with _ | d
      · rfl
      · by_cases h : d = "" <;> simp [h, List.countP_append, List.countP_cons, isAuthorJoinFor]

theorem pres_handle_names (s : SessionState) (target : String) :
    Pres s (handle_names s target) := by
  unfold handle_names
  by_cases h1 : target ≠ "#timeline"
  · rw [if_pos h1]
    exact Pres.rfl'
  · rw [if_neg h1]
    refine Pres.trans' (pres_append s _ ?_ ?_ ?_) (pres_send _ _ rfl rfl (fun k => rfl))
    · exact countP_map_false _ _ _ (fun x => rfl)
    · exact countP_map_false _ _ _ (fun x => rfl)
    · intro k; exact countP_map_false _ _ _ (fun x => rfl)

theorem pres_ensure_author_joined (s : SessionState) (a : Author) :
    Pres s (ensure_author_joined s a) := by
  unfold ensure_author_joined
  by_cases h : a.nick ∈ s.joinedAuthors
  · rw [if_pos h]
    exact Pres.rfl'
  · rw [if_neg h]
    refine ⟨rfl, rfl, rfl, ?_, ?_, ?_⟩
    · simp [send, List.countP_append, List.countP_cons, is001]
    · simp [send, List.countP_append, List.countP_cons, isSelfJoinMsg]
    · intro hc k
      by_cases hk : k = a.nick
      · subst hk
        have h0 : s.output.countP (isAuthorJoinFor a.nick) = 0 := by
          rw [hc a.nick, if_neg h]
        simp [send, List.countP_append, List.countP_cons, isAuthorJoinFor, h0]
      · have hbeq : (a.nick == k) = false :=
          beq_eq_false_iff_ne.mpr (fun hx => hk hx.symm)
        simp [send, List.countP_append, List.countP_cons, isAuthorJoinFor, hbeq,
          hc k, List.mem_append, hk]

theorem pres_send_post_as_author (s : SessionState) (fv : FeedItem) :
    Pres s (send_post_as_author s fv).1 := by
  unfold send_post_as_author
  cases hfmt : format_post_for_irc fv with
  | none => exact pres_ensure_author_joined s _
  | some lines =>
    dsimp only
    refine Pres.trans' (pres_ensure_author_joined s (get_author fv)) ?_
    refine pres_append _ _ ?_ ?_ ?_
    · exact countP_map_false _ _ _ (fun x => rfl)
    · exact countP_map_false _ _ _ (fun x => rfl)
    · intro k; exact countP_map_false _ _ _ (fun x => rfl)

theorem pres_sendPosts (ps : List FeedItem) :
    ∀ s : SessionState, Pres s (sendPosts s ps) := by
  induction ps with
  | nil => intro s; exact Pres.rfl'
  | cons fv rest ih =>
    intro s
    unfold sendPosts
    cases hsp : send_post_as_author s fv with
    | mk s1 ok =>
      have hp : Pres s s1 := by
        have := pres_send_post_as_author s fv
        rw [hsp] at this
        exact this
      cases ok with
      | true => exact Pres.trans' hp (ih s1)
      | false => exact hp

theorem pres_send_history (at' : ATState) (s : SessionState) :
    Pres s (send_history at' s) := by
  unfold send_history
  by_cases h : at'.posts.isEmpty
  · simp only [h, if_pos rfl]
    exact pres_send_channel _ _
  · simp only [h, reduceIte]
    exact pres_sendPosts _ s

/-- The full session invariant, relative to whether a `NICK` (`a`) and a
`USER` (`b`) line have been received so far: the flags record exactly that,
registration happened exactly when both flags are set, the 001 welcome and
the self join each appear exactly once when registered (never otherwise),
and the author-join bookkeeping of `CInv` holds. -/
def SInv (s : SessionState) (a b : Bool) : Prop :=
  s.gotNick = a ∧ s.gotUser = b ∧ s.registered = (a && b) ∧
  s.output.countP is001 = (if s.registered then 1 else 0) ∧
  s.output.countP isSelfJoinMsg = (if s.registered then 1 else 0) ∧
  CInv s

theorem SInv.of_pres {s s' : SessionState} {a b : Bool}
    (hp : Pres s s') (h : SInv s a b) : SInv s' a b := by
  obtain ⟨h1, h2, h3, h4, h5, h6⟩ := h
  exact ⟨hp.gotNick.trans h1, hp.gotUser.trans h2, hp.registered.trans h3,
    by rw [hp.c001, hp.registered, h4],
    by rw [hp.cSelf, hp.registered, h5],
    hp.cAuth h6⟩

theorem finish_registration_inv (at' : ATState) (s : SessionState)
    (hg : s.gotNick = true) (hu : s.gotUser = true)
    (h001 : s.output.countP is001 = (if s.registered then 1 else 0))
    (hself : s.output.countP isSelfJoinMsg = (if s.registered then 1 else 0))
    (hc : CInv s) :
    SInv (finish_registration at' s) true true := by
  by_cases hr : s.registered
  · unfold finish_registration
    rw [if_pos hr]
    exact ⟨hg, hu, by rw [hr]; rfl, by rw [h001], by rw [hself], hc⟩
  · unfold finish_registration
    rw [if_neg hr]
    dsimp only
    refine SInv.of_pres (pres_send_history at' _) ?_
    rw [if_neg hr] at h001 hself
    refine ⟨hg, hu, rfl, ?_, ?_, ?_⟩
    · simp [send, List.countP_append, List.countP_cons, is001, h001]
    · simp [send, List.countP_append, List.countP_cons, isSelfJoinMsg, hself]
    · intro k
      simp [send, List.countP_append, List.countP_cons, isAuthorJoinFor, hc k]

theorem stepEv_inv (at' : ATState) {s : SessionState} {a b : Bool} (e : Ev)
    (h : SInv s a b) :
    SInv (stepEv at' s e) (a || isNickEv e) (b || isUserEv e) := by
  obtain ⟨h1, h2, h3, h4, h5, h6⟩ := h
  cases e with
  | post fv =>
    simp only [stepEv, isNickEv, isUserEv, Bool.or_false]
    exact SInv.of_pres (pres_send_post_as_author s fv) ⟨h1, h2, h3, h4, h5, h6⟩
  | cline l =>
    simp only [stepEv]
    unfold handle_line
    cases hps : pySplitWs l with
    | nil =>
      have hn : isNickEv (.cline l) = false := by simp [isNickEv, hps]
      have hu : isUserEv (.cline l) = false := by simp [isUserEv, hps]
      rw [hn, hu, Bool.or_false, Bool.or_false]
      exact ⟨h1, h2, h3, h4, h5, h6⟩
    | cons p0 rest =>
      have hn : isNickEv (.cline l) = (pyToUpper p0 == "NICK") := by
        simp [isNickEv, hps]
      have hu : isUserEv (.cline l) = (pyToUpper p0 == "USER") := by
        simp [isUserEv, hps]
      rw [hn, hu]
      dsimp only
      by_cases hc1 : pyToUpper p0 = "CAP"
      · rw [if_pos hc1, hc1]
        rw [show (("CAP" : String) == "NICK") = false from by decide,
            show (("CAP" : String) == "USER") = false from by decide,
            Bool.or_false, Bool.or_false]
        exact SInv.of_pres (pres_handle_capability s rest) ⟨h1, h2, h3, h4, h5, h6⟩
      · rw [if_neg hc1]
        by_cases hc2 : pyToUpper p0 = "PING"
        · rw [if_pos hc2, hc2]
          rw [show (("PING" : String) == "NICK") = false from by decide,
              show (("PING" : String) == "USER") = false from by decide,
              Bool.or_false, Bool.or_false]
          exact SInv.of_pres (pres_send _ _ rfl rfl (fun k => rfl)) ⟨h1, h2, h3, h4, h5, h6⟩
        · rw [if_neg hc2]
          by_cases hc3 : pyToUpper p0 = "MODE"
          · rw [if_pos hc3, hc3]
            rw [show (("MODE" : String) == "NICK") = false from by decide,
                show (("MODE" : String) == "USER") = false from by decide,
                Bool.or_false, Bool.or_false]
            cases rest with
            | nil => exact ⟨h1, h2, h3, h4, h5, h6⟩
            | cons t _ => exact SInv.of_pres (pres_handle_mode s t) ⟨h1, h2, h3, h4, h5, h6⟩
          · rw [if_neg hc3]
            by_cases hc4 : pyToUpper p0 = "NICK"
            · rw [if_pos hc4, hc4]
              rw [show (("NICK" : String) == "NICK") = true from by decide,
                  show (("NICK" : String) == "USER") = false from by decide,
                  Bool.or_true, Bool.or_false]
              cases hb : s.gotUser with
              | false =>
                rw [if_neg (by simp [hb])]
                subst h2
                refine ⟨rfl, hb.symm, ?_, h4, h5, h6⟩
                rw [h3, hb, Bool.and_false, Bool.and_false]
              | true =>
                rw [if_pos (by simp [hb])]
                subst h2
                rw [hb]
                apply finish_registration_inv at'
                · rfl
                · rfl
                · exact h4
                · exact h5
                · exact h6
            · rw [if_neg hc4]
              by_cases hc5 : pyToUpper p0 = "USER"
              · rw [if_pos hc5, hc5]
                rw [show (("USER" : String) == "NICK") = false from by decide,
                    show (("USER" : String) == "USER") = true from by decide,
                    Bool.or_false, Bool.or_true]
                cases ha : s.gotNick with
                | false =>
                  rw [if_neg (by simp [ha])]
                  subst h1
                  refine ⟨ha.symm, rfl, ?_, h4, h5, h6⟩
                  rw [h3, ha, Bool.false_and, Bool.false_and]
                | true =>
                  rw [if_pos (by simp [ha])]
                  subst h1
                  rw [ha]
                  apply finish_registration_inv at'
                  · rfl
                  · rfl
                  · exact h4
                  · exact h5
                  · exact h6
              · rw [if_neg hc5]
                have hbn : (pyToUpper p0 == "NICK") = false := beq_eq_false_iff_ne.mpr hc4
                have hbu : (pyToUpper p0 == "USER") = false := beq_eq_false_iff_ne.mpr hc5
                rw [hbn, hbu, Bool.or_false, Bool.or_false]
                by_cases hc6 : pyToUpper p0 = "PRIVMSG"
                · rw [if_pos hc6]
                  cases hj : s.joinedTimeline with
                  | false =>
                    rw [if_neg (by simp [hj])]
                    exact ⟨h1, h2, h3, h4, h5, h6⟩
                  | true =>
                    rw [if_pos (by simp [hj])]
                    match rest with
                    | [] => exact ⟨h1, h2, h3, h4, h5, h6⟩
                    | [t] => exact ⟨h1, h2, h3, h4, h5, h6⟩
                    | t :: u :: r =>
                      dsimp only
                      by_cases ht : t = "#timeline"
                      · rw [if_pos ht]
                        exact SInv.of_pres (pres_parse_timeline_cmd s _) ⟨h1, h2, h3, h4, h5, h6⟩
                      · rw [if_neg ht]
                        exact ⟨h1, h2, h3, h4, h5, h6⟩
                · rw [if_neg hc6]
                  by_cases hc7 : pyToUpper p0 = "QUIT"
                  · rw [if_pos hc7]
                    exact ⟨h1, h2, h3, h4, h5, h6⟩
                  · rw [if_neg hc7]
                    by_cases hc8 : pyToUpper p0 = "WHO"
                    · rw [if_pos hc8]
                      cases rest with
                      | nil => exact ⟨h1, h2, h3, h4, h5, h6⟩
                      | cons t _ =>
                        exact SInv.of_pres (pres_handle_who s t) ⟨h1, h2, h3, h4, h5, h6⟩
                    · rw [if_neg hc8]
                      by_cases hc9 : pyToUpper p0 = "WHOIS"
                      · rw [if_pos hc9]
                        cases rest with
                        | nil => exact ⟨h1, h2, h3, h4, h5, h6⟩
                        | cons t _ =>
                          exact SInv.of_pres (pres_handle_whois s t) ⟨h1, h2, h3, h4, h5, h6⟩
                      · rw [if_neg hc9]
                        by_cases hc10 : pyToUpper p0 = "NAMES"
                        · rw [if_pos hc10]
                          cases rest with
                          | nil => exact ⟨h1, h2, h3, h4, h5, h6⟩
                          | cons t _ =>
                            exact SInv.of_pres (pres_handle_names s t) ⟨h1, h2, h3, h4, h5, h6⟩
                        · rw [if_neg hc10]
                          exact ⟨h1, h2, h3, h4, h5, h6⟩

theorem run_inv (at' : ATState) (evs : List Ev) :
    ∀ (s : SessionState) (a b : Bool), SInv s a b →
      SInv (evs.foldl (stepEv at') s) (a || evs.any isNickEv) (b || evs.any isUserEv) := by
  induction evs with
  | nil =>
    intro s a b h
    simpa using h
  | cons e t ih =>
    intro s a b h
    have h1 := stepEv_inv at' e h
    have h2 := ih (stepEv at' s e) _ _ h1
    simpa [List.any_cons, Bool.or_assoc] using h2

theorem initSession_inv (sn bh : String) : SInv (initSession sn bh) false false := by
  refine ⟨rfl, rfl, rfl, rfl, rfl, ?_⟩
  intro k
  rfl

/-! ### Ordering of the history replay -/

/-- A sorted (`≤` on timestamps) permutation of a strictly
increasing-timestamp list is that list itself. -/
theorem perm_sorted_strict_eq :
    ∀ l₁ l₂ : List FeedItem,
      l₁.Pairwise (fun p q => p.atTime < q.atTime) →
      l₂.Sorted leAt → l₁.Perm l₂ → l₁ = l₂ := by
  intro l₁
  induction l₁ with
  | nil =>
    intro l₂ _ _ hp
    exact (hp.symm.eq_nil).symm
  | cons x t ih =>
    intro l₂ hpw hs hp
    cases l₂ with
    | nil => simpa using hp.eq_nil
    | cons y t₂ =>
      have hy : y ∈ x :: t := hp.mem_iff.mpr (List.mem_cons_self y t₂)
      rcases List.mem_cons.mp hy with hyx | hyt
      · subst hyx
        rw [ih t₂ hpw.of_cons hs.of_cons hp.cons_inv]
      · exfalso
        have hxy : x.atTime < y.atTime := (List.pairwise_cons.mp hpw).1 y hyt
        have hx2 : x ∈ y :: t₂ := hp.mem_iff.mp (List.mem_cons_self x t)
        rcases List.mem_cons.mp hx2 with hxy2 | hxt2
        · rw [hxy2] at hxy
          exact lt_irrefl _ hxy
        · exact absurd hxy (Nat.not_lt.mpr ((List.pairwise_cons.mp hs).1 x hxt2))

/-- On a strictly reverse-chronological feed (timestamps strictly
decreasing, the order the spec says the upstream delivers), the
`sorted(..., key=lambda p: p._at)` of `send_history` is exactly the
reversed feed. -/
theorem sortPosts_eq_reverse (posts : List FeedItem)
    (hp : posts.Pairwise (fun p q => q.atTime < p.atTime)) :
    sortPosts posts = posts.reverse := by
  have h1 : (posts.reverse).Pairwise (fun p q => p.atTime < q.atTime) :=
    List.pairwise_reverse.mpr hp
  have h2 : (sortPosts posts).Sorted leAt := List.sorted_insertionSort leAt posts
  have h3 : posts.reverse.Perm (sortPosts posts) :=
    (List.reverse_perm posts).trans (List.perm_insertionSort leAt posts).symm
  exact (perm_sorted_strict_eq _ _ h1 h2 h3).symm

/-! ### The numbered post index -/

theorem build_index_find (feed : List FeedItem) :
    ∀ i n : Nat, i < n → n ≤ i + feed.length →
      (build_index i feed).find? (fun p => p.1 == n)
        = (feed.get? (n - i - 1)).map (fun fv => (n, fv.post.cid, fv.post.uri)) := by
  induction feed with
  | nil =>
    intro i n h1 h2
    simp at h2
    omega
  | cons fv rest ih =>
    intro i n h1 h2
    unfold build_index
    by_cases hn : n = i + 1
    · rw [List.find?_cons_of_pos _ (by simp [hn])]
      have h0 : n - i - 1 = 0 := by omega
      simp [h0]
      omega
    · rw [List.find?_cons_of_neg _ (by simp; omega)]
      have hrec := ih (i + 1) n (by omega) (by simp at h2; omega)
      rw [hrec]
      have hk : n - i - 1 = (n - (i + 1) - 1) + 1 := by omega
      rw [hk]
      rfl

theorem find_first_cid (feed : List FeedItem) :
    ∀ (m : Nat) (fv : FeedItem), (feed.map (fun x => x.post.cid)).Nodup →
      feed.get? m = some fv →
      feed.find? (fun x => x.post.cid == fv.post.cid) = some fv := by
  induction feed with
  | nil =>
    intro m fv _ hg
    simp at hg
  | cons a rest ih =>
    intro m fv hnd hg
    rw [List.map_cons] at hnd
    have hnd2 := List.nodup_cons.mp hnd
    cases m with
    | zero =>
      simp at hg
      subst hg
      rw [List.find?_cons_of_pos _ (by simp)]
    | succ m' =>
      simp only [List.get?_cons_succ] at hg
      have hfv_mem : fv ∈ rest := List.get?_mem hg
      have hne : a.post.cid ≠ fv.post.cid := by
        intro hEq
        exact hnd2.1 (hEq ▸ List.mem_map_of_mem (fun x => x.post.cid) hfv_mem)
      rw [List.find?_cons_of_neg _ (by simp [hne])]
      exact ih m' fv hnd2.2 hg

/-! ### Whitespace-only text -/

theorem stripChars_of_all_space (l : List Char) (h : ∀ c ∈ l, isPySpace c = true) :
    stripChars l = [] := by
  unfold stripChars
  have h1 : l.dropWhile isPySpace = [] := List.dropWhile_eq_nil_iff.mpr (by simpa using h)
  rw [h1]
  rfl

theorem pyStrip_of_all_space (s : String) (h : ∀ c ∈ s.toList, isPySpace c = true) :
    pyStrip s = "" := by
  unfold pyStrip
  rw [stripChars_of_all_space _ h]

/-! ### Properties of `sanitize` -/

theorem sanitizeCore_props (base : List Char) (hb : ∀ c ∈ base, nickChar c = true) :
    0 < (sanitizeCore base).length ∧ (sanitizeCore base).length ≤ 16 ∧
    (∀ c ∈ sanitizeCore base, nickChar c = true) ∧
    (∀ c, (sanitizeCore base).head? = some c → c.isDigit = false) := by
  unfold sanitizeCore
  cases base with
  | nil => exact ⟨by decide, by decide, by decide, by decide⟩
  | cons c t =>
    simp only [List.isEmpty_cons, Bool.false_eq_true, if_false]
    by_cases hd : c.isDigit
    · rw [if_pos hd]
      refine ⟨?_, ?_, ?_, ?_⟩
      · simp [List.length_take]
      · simp [List.length_take]
      · intro x hx
        rcases List.mem_cons.mp (List.mem_of_mem_take hx) with rfl | hx2
        · decide
        · exact hb x hx2
      · intro x hx
        simp only [List.take_succ_cons, List.head?_cons, Option.some.injEq] at hx
        rw [← hx]
        decide
    · rw [if_neg hd]
      refine ⟨?_, ?_, ?_, ?_⟩
      · simp [List.length_take]
      · simp [List.length_take]
      · intro x hx
        exact hb x (List.mem_of_mem_take hx)
      · intro x hx
        simp only [List.take_succ_cons, List.head?_cons, Option.some.injEq] at hx
        rw [← hx]
        exact Bool.not_eq_true _ ▸ Bool.eq_false_iff.mpr hd

/-! ### Concrete fixtures used by the claim theorems -/

/-- A minimal original (non-reply, non-repost, embed-free) feed item. -/
def demoItem (text : String) (tm : Nat) (handle : String) : FeedItem :=
  { post := { cid := "cid-" ++ text, uri := "uri-" ++ text,
              author := { did := "did:plc:demo", handle := handle, displayName := none },
              record := .mk text [] false .none, embed := .none },
    reason := none, atTime := tm }

/-- A feed store whose history holds one post authored by `alice`. -/
def atAlice : ATState :=
  { timeline := [], post_index := [], posts := [demoItem "hi" 5 "alice"] }

/-- A feed store holding two posts in reverse-chronological (feed) order:
the newer post `"second"` first. -/
def atTwoPosts : ATState :=
  { timeline := [], post_index := [], posts := [demoItem "second" 2 "bob", demoItem "first" 1 "ann"] }

/-- A session that has already registered and joined the channel. -/
def joinedSession : SessionState :=
  { initSession "srv" "acct" with nick := some "bob", registered := true, joinedTimeline := true }

/-- The post of the spec's worked example: text `"hello\nworld"`, one facet
link `http://x`, no embed, not a reply, not a repost. -/
def exampleItem : FeedItem :=
  { post := { cid := "c", uri := "u",
              author := { did := "d", handle := "h", displayName := none },
              record := .mk "hello\nworld"
                [⟨"app.bsky.richtext.facet", [⟨"app.bsky.richtext.facet#link", "http://x"⟩]⟩]
                false .none,
              embed := .none },
    reason := none, atTime := 0 }

/-- A reply feed item. -/
def replyItem : FeedItem :=
  { post := { cid := "c", uri := "u",
              author := { did := "d", handle := "h", displayName := none },
              record := .mk "answer" [] true .none, embed := .none },
    reason := none, atTime := 0 }

/-- A repost: `carol` reposting a post of `h`. -/
def repostItem : FeedItem :=
  { demoItem "hi" 7 "h" with reason := some ⟨{ did := "d2", handle := "carol", displayName := none }⟩ }

/-- Two feed items whose posts share one `cid` (the timeline can contain an
original post and a repost of it, which carry the same `post.cid`). -/
def dupFeed : List FeedItem :=
  [{ post := { cid := "c", uri := "ua",
               author := { did := "d", handle := "h", displayName := none },
               record := .mk "t" [] false .none, embed := .none },
     reason := none, atTime := 0 },
   { post := { cid := "c", uri := "ub",
               author := { did := "d", handle := "h", displayName := none },
               record := .mk "t" [] false .none, embed := .none },
     reason := some ⟨{ did := "d2", handle := "h2", displayName := none }⟩, atTime := 1 }]

/-- Two feed items with distinct cids. -/
def goodFeed : List FeedItem :=
  [demoItem "one" 2 "h1", demoItem "two" 1 "h2"]

/-- An empty feed store, used as the base object `fetch_timeline` mutates. -/
def atEmpty : ATState := { timeline := [], post_index := [], posts := [] }

/-! ### Claims -/

/-- Claim C1, as stated, is false: `finish_registration` replays the feed
history, but `send_history` sorts the posts by their timestamp ascending
(`sorted(self.at.posts, key=lambda p: p._at)`), which on a
reverse-chronological feed is the *reverse* of feed order.  Concretely:
with the feed `["second", "first"]` (feed order, newest first), a session
that completes registration receives the post lines
`["first ", "second "]`, not the feed-order sequence. -/
theorem c1_history_replay_not_feed_order :
    atTwoPosts.posts.map (fun p => p.post.record.text) = ["second", "first"] ∧
    ((runSession atTwoPosts "srv" "acct"
        [.cline "NICK z", .cline "USER a b c d"]).output.filterMap postText)
      = ["first ", "second "] ∧
    ((runSession atTwoPosts "srv" "acct"
        [.cline "NICK z", .cline "USER a b c d"]).output.filterMap postText)
      ≠ atTwoPosts.posts.map (fun p => p.post.record.text ++ " ") :=
  ⟨rfl, rfl, by decide⟩

/-- Claim C1 (amended): completing registration replays the current feed
history with the posts delivered sorted by timestamp ascending (oldest
first); on a strictly reverse-chronological feed this is exactly the
reversed feed order. -/
theorem c1_history_replay_chronological (at' : ATState) (s : SessionState)
    (hp : at'.posts.Pairwise (fun p q => q.atTime < p.atTime)) :
    sortPosts at'.posts = at'.posts.reverse ∧
    (at'.posts ≠ [] → send_history at' s = sendPosts s at'.posts.reverse) := by
  have h1 := sortPosts_eq_reverse at'.posts hp
  refine ⟨h1, fun hne => ?_⟩
  unfold send_history
  rw [if_neg (by simpa [List.isEmpty_iff] using hne), h1]

/-- Witness for `c1_history_replay_chronological` at the two-post feed. -/
theorem c1_history_replay_chronological_witness :
    atTwoPosts.posts.Pairwise (fun p q => q.atTime < p.atTime) ∧
    (sortPosts atTwoPosts.posts = atTwoPosts.posts.reverse ∧
     (atTwoPosts.posts ≠ [] →
       send_history atTwoPosts joinedSession = sendPosts joinedSession atTwoPosts.posts.reverse)) :=
  ⟨by norm_num [atTwoPosts, demoItem, List.pairwise_cons],
   c1_history_replay_chronological atTwoPosts joinedSession
     (by norm_num [atTwoPosts, demoItem, List.pairwise_cons])⟩

/-- Claim C2, as stated, is false in its second half: channel messages are
indeed parsed as bang-commands and unrecognized ones produce the help
line, but the recognized command set contains *only* the session-local
`!echo`; there are no commands acting on the Feed Store.  The natural
spellings of the claimed feed commands (a page request, a numbered-post
detail request, a refresh request) all fall into the unrecognized case and
yield the help line, and the dispatcher does not even receive the feed
store as an input. -/
theorem c2_feed_commands_unrecognized :
    (parse_timeline_cmd joinedSession "!refresh").output
      = joinedSession.output ++ [.privmsgChannel "bob" "Commands: !echo <text>"] ∧
    (parse_timeline_cmd joinedSession "!page 2").output
      = joinedSession.output ++ [.privmsgChannel "bob" "Commands: !echo <text>"] ∧
    (parse_timeline_cmd joinedSession "!post 3").output
      = joinedSession.output ++ [.privmsgChannel "bob" "Commands: !echo <text>"] ∧
    handle_line atTwoPosts joinedSession "PRIVMSG #timeline :!refresh"
      = parse_timeline_cmd joinedSession "!refresh" :=
  ⟨rfl, rfl, rfl, rfl⟩

/-- Claim C2 (amended): a channel `PRIVMSG` from a joined session is parsed
as a bang-command; the only recognized command is the session-local
`!echo <text>`, which echoes its arguments back to the channel, and every
other non-empty message produces the help line
`Commands: !echo <text>`. -/
theorem c2_bang_command_dispatch (s : SessionState) (msg : String) :
    (pySplitWs (pyStrip msg) = [] → parse_timeline_cmd s msg = s) ∧
    ∀ c0 rest, pySplitWs (pyStrip msg) = c0 :: rest →
      ((pyToLower c0 = "!echo" ∧ rest ≠ []) →
        parse_timeline_cmd s msg = send_channel s (joinSpace rest)) ∧
      (¬(pyToLower c0 = "!echo" ∧ rest ≠ []) →
        parse_timeline_cmd s msg = send_channel s "Commands: !echo <text>") := by
  constructor
  · intro h
    unfold parse_timeline_cmd
    rw [h]
  · intro c0 rest hsp
    constructor
    · intro hcmd
      unfold parse_timeline_cmd
      rw [hsp]
      dsimp only
      rw [if_pos hcmd]
    · intro hncmd
      unfold parse_timeline_cmd
      rw [hsp]
      dsimp only
      rw [if_neg hncmd]

/-- Witness for `c2_bang_command_dispatch`: the echo command and an
unrecognized command, both at concrete inputs. -/
theorem c2_bang_command_dispatch_witness :
    (pySplitWs (pyStrip "!echo hi") = ["!echo", "hi"] ∧
     parse_timeline_cmd joinedSession "!echo hi" = send_channel joinedSession (joinSpace ["hi"])) ∧
    (pySplitWs (pyStrip "!refresh") = ["!refresh"] ∧
     parse_timeline_cmd joinedSession "!refresh"
       = send_channel joinedSession "Commands: !echo <text>") :=
  ⟨⟨rfl, ((c2_bang_command_dispatch joinedSession "!echo hi").2 "!echo" ["hi"] rfl).1
      ⟨rfl, by decide⟩⟩,
   ⟨rfl, ((c2_bang_command_dispatch joinedSession "!refresh").2 "!refresh" [] rfl).2
      (by simp)⟩⟩

/-- Claim C3, as stated, is false on one step: for an input whose filtered
result is empty the code substitutes the fallback `"_nohandle"`, it does
not merely prefix `'_'` (which would give `"_"`) as the claim's step list
says.  `specSanitizeC3` is the claim's algorithm verbatim; it disagrees
with the source's `sanitize` at `"!!!"`. -/
theorem c3_empty_sanitize_counterexample :
    sanitize "!!!" = "_nohandle" ∧ specSanitizeC3 "!!!" = "_" ∧
    sanitize "!!!" ≠ specSanitizeC3 "!!!" :=
  ⟨rfl, rfl, by decide⟩

/-- Claim C3 (amended): nick derivation strips the `.bsky.social` suffix,
replaces `'.'` and `' '` with `'_'`, removes all characters outside
`[A-Za-z0-9_]`, replaces an empty result with `"_nohandle"`, prefixes
`'_'` on a leading digit and truncates to 16 characters; consequently the
derived nick is always nonempty, at most 16 characters, drawn from
`[A-Za-z0-9_]` (hence matches `[A-Za-z0-9_]+`), never starts with a digit,
and — being a pure function of `display_name or handle` — is the same for
the same `(handle, display_name)` regardless of any other author data. -/
theorem c3_sanitize_properties (s : String) :
    0 < (sanitize s).length ∧ (sanitize s).length ≤ 16 ∧
    (∀ c ∈ (sanitize s).toList, nickChar c = true) ∧
    (∀ c, (sanitize s).toList.head? = some c → c.isDigit = false) ∧
    (∀ did did' handle dn, (Author.make did handle dn).nick = (Author.make did' handle dn).nick) := by
  have hb : ∀ c ∈ (((if ".bsky.social".toList.isSuffixOf s.toList
      then s.toList.take (s.toList.length - 12) else s.toList).map
        (fun c => if c = '.' then '_' else c)).map
        (fun c => if c = ' ' then '_' else c)).filter nickChar, nickChar c = true :=
    fun c hc => (List.mem_filter.mp hc).2
  have h := sanitizeCore_props _ hb
  exact ⟨h.1, h.2.1, h.2.2.1, h.2.2.2, fun _ _ _ _ => rfl⟩

/-- Claim C4, as stated, is false: the spec's own two-line compaction rule
(step 4 of the renderer) fires on this very example.  Rendering the post
with text `"hello\nworld"` and facet link `http://x` produces the two
lines `"hello"` and `"world http://x"`, which are then merged, so the
result is `["hello world http://x"]`, not `["hello", "world http://x"]`. -/
theorem c4_two_line_example_counterexample :
    format_post exampleItem.post.record = some ["hello", "world http://x"] ∧
    format_post_for_irc exampleItem ≠ some ["hello", "world http://x"] :=
  ⟨rfl, by decide⟩

/-- Claim C4 (amended): the example post renders as the single merged line
`["hello world http://x"]`. -/
theorem c4_two_line_example_merged :
    format_post_for_irc exampleItem = some ["hello world http://x"] := rfl

/-- Claim C5 (confirmed): rendering any feed item whose post record has the
reply marker set yields the empty line sequence. -/
theorem c5_reply_renders_empty (fv : FeedItem) (h : fv.post.record.reply = true) :
    format_post_for_irc fv = some [] := by
  unfold format_post_for_irc
  rw [if_pos h]

/-- Witness for `c5_reply_renders_empty` at a concrete reply item. -/
theorem c5_reply_renders_empty_witness :
    replyItem.post.record.reply = true ∧ format_post_for_irc replyItem = some [] :=
  ⟨rfl, c5_reply_renders_empty replyItem rfl⟩

/-- Claim C6 (confirmed): a non-reply feed item carrying a repost reason
renders as exactly one marker line naming the original post's author
followed by the `" | "`-indented body lines of the underlying post, so the
indented line count equals the line count of rendering the same item
without the repost wrapper. -/
theorem c6_repost_marker_indent (fv : FeedItem) (r : Reason) (hr : fv.reason = some r)
    (hnr : fv.post.record.reply = false) (ls : List String)
    (hls : format_post_for_irc { fv with reason := none } = some ls) :
    format_post_for_irc fv
      = some (("↻ @" ++ fv.post.author.handle ++ ":") :: ls.map (fun l => " | " ++ l)) ∧
    (("↻ @" ++ fv.post.author.handle ++ ":") :: ls.map (fun l => " | " ++ l)).length
      = ls.length + 1 := by
  constructor
  · unfold format_post_for_irc at hls ⊢
    dsimp only at hls
    rw [if_neg (by simp [hnr])] at hls ⊢
    cases hfp : format_post fv.post.record with
    | none =>
      rw [hfp] at hls
      simp at hls
    | some a =>
      rw [hfp] at hls
      cases hfe : format_embed fv.post.embed fv.post.uri with
      | none =>
        rw [hfe] at hls
        simp at hls
      | some b =>
        rw [hfe] at hls
        dsimp only at hls ⊢
        simp only [Option.isSome_none, Bool.false_eq_true, if_false,
          Option.some.injEq] at hls
        rw [hr]
        simp only [Option.isSome_some, if_true]
        rw [hls]
  · simp

/-- Witness for `c6_repost_marker_indent` at a concrete repost. -/
theorem c6_repost_marker_indent_witness :
    (repostItem.reason = some ⟨{ did := "d2", handle := "carol", displayName := none }⟩ ∧
     repostItem.post.record.reply = false ∧
     format_post_for_irc { repostItem with reason := none } = some ["hi "]) ∧
    (format_post_for_irc repostItem
       = some (("↻ @" ++ repostItem.post.author.handle ++ ":") :: (["hi "].map (fun l => " | " ++ l))) ∧
     (("↻ @" ++ repostItem.post.author.handle ++ ":") :: (["hi "].map (fun l => " | " ++ l))).length
       = (["hi "] : List String).length + 1) :=
  ⟨⟨rfl, rfl, rfl⟩,
   c6_repost_marker_indent repostItem ⟨{ did := "d2", handle := "carol", displayName := none }⟩
     rfl rfl ["hi "] rfl⟩

/-- Claim C7, as stated, is false: `find_feed_view` resolves `index[n]` by
scanning the timeline for the *first* item whose `post.cid` matches the
stored cid, so when two timeline entries share a cid (an original post and
a repost of it), `index[n]` for the later entry resolves to the earlier
one, not to the item at offset `n-1`.  Concretely, on a two-item timeline
with equal cids and uris `"ua"`, `"ub"`, looking up post number 2 returns
the item with uri `"ua"` while offset 1 holds the item with uri `"ub"`. -/
theorem c7_duplicate_cid_counterexample :
    (find_feed_view (fetch_timeline atEmpty dupFeed) 2).map (fun fv => fv.post.uri) = some "ua" ∧
    (dupFeed.get? 1).map (fun fv => fv.post.uri) = some "ub" ∧
    ("ua" : String) ≠ "ub" :=
  ⟨rfl, rfl, by decide⟩

/-- Claim C7 (amended): after a refresh, `index[n]` stores exactly the
`(cid, uri)` of the item at offset `n-1` of the new snapshot for every `n`
in range, and — provided the snapshot's post cids are pairwise distinct —
`find_feed_view n` returns exactly the `n`-th item of the current
timeline. -/
theorem c7_index_resolves_nth_of_nodup (at' : ATState) (feed : List FeedItem) (n : Nat)
    (hnd : (feed.map (fun fv => fv.post.cid)).Nodup)
    (h1 : 1 ≤ n) (h2 : n ≤ feed.length) :
    (fetch_timeline at' feed).post_index.find? (fun p => p.1 == n)
      = (feed.get? (n - 1)).map (fun fv => (n, fv.post.cid, fv.post.uri)) ∧
    find_feed_view (fetch_timeline at' feed) n = feed.get? (n - 1) := by
  have hb := build_index_find feed 0 n (by omega) (by omega)
  have h0 : n - 0 - 1 = n - 1 := by omega
  rw [h0] at hb
  have hidx : (fetch_timeline at' feed).post_index = build_index 0 feed := rfl
  have htl : (fetch_timeline at' feed).timeline = feed := rfl
  obtain ⟨fv, hget⟩ : ∃ fv, feed.get? (n - 1) = some fv :=
    ⟨_, List.get?_eq_get (by omega)⟩
  constructor
  · rw [hidx, hb]
  · unfold find_feed_view
    rw [hidx, hb, htl, hget]
    dsimp only [Option.map_some']
    exact find_first_cid feed (n - 1) fv hnd hget

/-- Witness for `c7_index_resolves_nth_of_nodup` on a distinct-cid feed at
`n = 2`. -/
theorem c7_index_resolves_nth_of_nodup_witness :
    ((goodFeed.map (fun fv => fv.post.cid)).Nodup ∧ 1 ≤ 2 ∧ 2 ≤ goodFeed.length) ∧
    ((fetch_timeline atEmpty goodFeed).post_index.find? (fun p => p.1 == 2)
       = (goodFeed.get? 1).map (fun fv => (2, fv.post.cid, fv.post.uri)) ∧
     find_feed_view (fetch_timeline atEmpty goodFeed) 2 = goodFeed.get? 1) :=
  ⟨⟨by decide, by decide, by decide⟩,
   c7_index_resolves_nth_of_nodup atEmpty goodFeed 2 (by decide) (by decide) (by decide)⟩

/-- Claim C8 (confirmed): over any connection lifetime (any sequence of
client lines and fanned-out posts), the 001 welcome and the self-join are
each emitted exactly once if the trace contains at least one `NICK` line
and at least one `USER` line — in either order — and never otherwise; in
particular a repeated `USER` or `NICK` does not re-emit them, since
`finish_registration` is guarded by the `registered` flag. -/
theorem c8_registration_fires_once (at' : ATState) (sn bh : String) (evs : List Ev) :
    (runSession at' sn bh evs).output.countP is001
        = (if evs.any isNickEv && evs.any isUserEv then 1 else 0) ∧
    (runSession at' sn bh evs).output.countP isSelfJoinMsg
        = (if evs.any isNickEv && evs.any isUserEv then 1 else 0) := by
  have h := run_inv at' evs (initSession sn bh) false false (initSession_inv sn bh)
  obtain ⟨_, _, h3, h4, h5, _⟩ := h
  unfold runSession
  constructor
  · rw [h4, h3]
    simp
  · rw [h5, h3]
    simp

/-- Claim C9, as stated, is false: `ensure_author_joined` never announces
the same author nick twice, but the client's *own* auto-join (emitted by
`finish_registration`) is also a join announcement, and when the client
registers under a nick that collides with a derived author nick the
session emits two JOIN lines for that nick within one connection.
Concretely: registering as `alice` and then receiving a post authored by
`alice` yields two join announcements for `alice`. -/
theorem c9_nick_collision_double_join :
    ((runSession atAlice "srv" "acct"
        [.cline "NICK alice", .cline "USER a b c d"]).output.countP (isJoinFor "alice")) = 2 :=
  rfl

/-- Claim C9 (amended): within one connection lifetime a session emits at
most one *author* join announcement per nick, no matter how many posts by
that nick are delivered, and at most one self join; hence at most two join
lines per nick overall, the second possible only through a collision with
the client's own nick. -/
theorem c9_author_join_at_most_once (at' : ATState) (sn bh : String) (evs : List Ev)
    (k : String) :
    (runSession at' sn bh evs).output.countP (isAuthorJoinFor k) ≤ 1 ∧
    (runSession at' sn bh evs).output.countP isSelfJoinMsg ≤ 1 := by
  have h := run_inv at' evs (initSession sn bh) false false (initSession_inv sn bh)
  obtain ⟨_, _, _, _, h5, h6⟩ := h
  unfold runSession
  constructor
  · rw [h6 k]
    split <;> omega
  · rw [h5]
    split <;> omega

/-- Claim C10 (confirmed): for any post record whose text is non-empty but
all whitespace, every split line is dropped as blank, so `format_post`
reaches `lines[-1]` on an empty list and raises (modelled as `none`)
rather than returning a line sequence, and rendering a non-reply feed item
carrying such a record fails the same way. -/
theorem c10_whitespace_text_render_fails (r : Record) (h1 : r.text ≠ "")
    (h2 : ∀ c ∈ r.text.toList, isPySpace c = true) :
    format_post r = none ∧
    ∀ fv : FeedItem, fv.post.record = r → r.reply = false → format_post_for_irc fv = none := by
  have hstrip : pyStrip r.text = "" := pyStrip_of_all_space _ h2
  have hfp : format_post r = none := by
    cases r with
    | mk tx fc rp em =>
      unfold format_post
      dsimp only [Record.text, Record.facets] at *
      rw [if_neg h1, hstrip]
      rfl
  refine ⟨hfp, fun fv hfv hrep => ?_⟩
  unfold format_post_for_irc
  rw [hfv, hrep]
  simp [hfp]

/-- Witness for `c10_whitespace_text_render_fails` on the record with text
`" \n\t "`. -/
theorem c10_whitespace_text_render_fails_witness :
    ((Record.mk " \n\t " [] false .none).text ≠ "" ∧
     ∀ c ∈ (Record.mk " \n\t " [] false .none).text.toList, isPySpace c = true) ∧
    (format_post (Record.mk " \n\t " [] false .none) = none ∧
     ∀ fv : FeedItem, fv.post.record = Record.mk " \n\t " [] false .none →
       (Record.mk " \n\t " [] false .none).reply = false → format_post_for_irc fv = none) :=
  ⟨⟨by decide, by decide⟩,
   c10_whitespace_text_render_fails (Record.mk " \n\t " [] false .none) (by decide) (by decide)⟩

/-- Witness for `c3_sanitize_properties` at a concrete input. -/
theorem c3_sanitize_properties_witness :
    0 < (sanitize "bob smith.bsky.social").length ∧
    (sanitize "bob smith.bsky.social").length ≤ 16 ∧
    (∀ c ∈ (sanitize "bob smith.bsky.social").toList, nickChar c = true) ∧
    (∀ c, (sanitize "bob smith.bsky.social").toList.head? = some c → c.isDigit = false) ∧
    (∀ did did' handle dn,
      (Author.make did handle dn).nick = (Author.make did' handle dn).nick) :=
  c3_sanitize_properties "bob smith.bsky.social"
